import Mathlib

/-!
Shallow embedding of the traffic simulation (`src/node_graph.rs`,
`src/vehicles.rs`, `src/vehicle_spawn_limiter.rs`) in Lean 4.

Modelling conventions:
* `f32` scalars are modelled as exact rationals (`ℚ`); `Vec3::length` (an
  `f32` square root) is modelled by `Rat.sqrt`, which agrees with the exact
  square root on perfect squares (all concrete inputs below are chosen so
  that every length that matters is a perfect square).
* Rust `HashMap`/`HashSet` containers are modelled as association lists /
  lists with the iteration order made explicit; theorems about passes that
  iterate over hash containers quantify over the list order where the
  result could depend on it.
* Rust `panic!`/`expect` is modelled by `Except`/`Option` failure or, for
  infallible-by-construction lookups (`unwrap` on data the caller just
  validated), by a `getD` default.
* `Instant::now()` is modelled by an explicit `now : ℕ` parameter and
  `Duration` by `ℕ`, with `elapsed = now - last` (truncated subtraction,
  matching the fact that a monotonic clock never yields `now < last`).
-/

namespace Traffic

/-! ### Geometry (`bevy` `Vec3`, restricted to what the simulation uses) -/

structure Vec3 where
  x : ℚ
  y : ℚ
  z : ℚ
deriving DecidableEq, Repr

def Vec3.sub (a b : Vec3) : Vec3 := ⟨a.x - b.x, a.y - b.y, a.z - b.z⟩

def Vec3.add (a b : Vec3) : Vec3 := ⟨a.x + b.x, a.y + b.y, a.z + b.z⟩

def Vec3.smul (a : Vec3) (c : ℚ) : Vec3 := ⟨a.x * c, a.y * c, a.z * c⟩

def Vec3.normSq (v : Vec3) : ℚ := v.x * v.x + v.y * v.y + v.z * v.z

/-- Model of `Vec3::length` (`f32` Euclidean norm): exact on vectors whose
squared norm is the square of a rational. -/
def Vec3.length (v : Vec3) : ℚ := Rat.sqrt v.normSq

/-! ### Association-list models of `HashMap` / `HashSet` -/

def lookupList {α β : Type} [DecidableEq α] (k : α) : List (α × β) → Option β
  | [] => none
  | (k', v) :: rest => if k = k' then some v else lookupList k rest

/-- `HashMap::insert`: replace the binding if the key is present, else add it. -/
def insertList {α β : Type} [DecidableEq α] (k : α) (v : β) : List (α × β) → List (α × β)
  | [] => [(k, v)]
  | (k', v') :: rest => if k = k' then (k, v) :: rest else (k', v') :: insertList k v rest

/-- `HashMap::remove`: drop all bindings of the key (at most one in a
well-formed map). -/
def removeList {α β : Type} [DecidableEq α] (k : α) (m : List (α × β)) : List (α × β) :=
  m.filter (fun e => decide (e.1 ≠ k))

/-- `map.entry(k).or_default().insert(v)` for a map of sets. -/
def adjacencyInsert (k v : ℕ) : List (ℕ × List ℕ) → List (ℕ × List ℕ)
  | [] => [(k, [v])]
  | (k', vs) :: rest =>
    if k = k' then (k', if v ∈ vs then vs else vs ++ [v]) :: rest
    else (k', vs) :: adjacencyInsert k v rest

/-- `map.entry(k).or_default().push(v)` for a map of vectors. -/
def pushToEntry {α : Type} [DecidableEq α] (k : α) (v : ℕ) :
    List (α × List ℕ) → List (α × List ℕ)
  | [] => [(k, [v])]
  | (k', vs) :: rest =>
    if k = k' then (k', vs ++ [v]) :: rest else (k', vs) :: pushToEntry k v rest

/-! ### `vehicle_spawn_limiter.rs` -/

structure VehicleSpawnLimiter where
  interval : ℕ
  lastSpawned : Option ℕ
deriving DecidableEq, Repr

def VehicleSpawnLimiter.new (interval : ℕ) : VehicleSpawnLimiter :=
  { interval, lastSpawned := none }

/-- `VehicleSpawnLimiter::try_spawn`, with `Instant::now()` passed in as
`now`.  Returns the boolean result together with the updated limiter. -/
def VehicleSpawnLimiter.trySpawn (lim : VehicleSpawnLimiter) (now : ℕ) :
    Bool × VehicleSpawnLimiter :=
  match lim.lastSpawned with
  | some lastSpawned =>
    if now - lastSpawned < lim.interval then (false, lim)
    else (true, { lim with lastSpawned := some now })
  | none => (true, { lim with lastSpawned := some now })

/-! ### `node_graph.rs`: data model -/

structure Node where
  position : Vec3
deriving DecidableEq, Repr

structure EdgeData where
  priority : Bool
deriving DecidableEq, Repr

structure NodeGraph where
  nodes : List Node
  edges : List ((ℕ × ℕ) × EdgeData)
  sourceNodes : List ℕ
  destNodes : List ℕ
  nodeMap : List (ℕ × List ℕ)
  reverseNodeMap : List (ℕ × List ℕ)
  shortestPathMap : List ((ℕ × ℕ) × List ℕ)
  nodeReservationMap : List (ℕ × ℕ)
deriving DecidableEq, Repr

def defaultNode : Node := ⟨⟨0, 0, 0⟩⟩

/-- Panicking index `node_graph.nodes[i]`, modelled with a default for the
out-of-bounds (panic) case. -/
def NodeGraph.getNode (g : NodeGraph) (i : ℕ) : Node := g.nodes.getD i defaultNode

/-! ### `node_graph.rs`: breadth-first distance map -/

/-- One step per loop iteration of `calculate_distance_map`: pop the queue
front, then push every not-yet-seen connection with distance one greater.
`fuel` bounds the iteration count; since a node is enqueued at most once,
`bfsFuel` below is always enough. -/
def bfsGo (nodeMap : List (ℕ × List ℕ)) :
    ℕ → List (ℕ × ℕ) → List ℕ → List (ℕ × ℕ)
  | 0, distanceMap, _ => distanceMap
  | _ + 1, distanceMap, [] => distanceMap
  | fuel + 1, distanceMap, node :: queue =>
    let distance := (lookupList node distanceMap).getD 0
    match lookupList node nodeMap with
    | none => bfsGo nodeMap fuel distanceMap queue
    | some connections =>
      let st := connections.foldl
        (fun (st : List (ℕ × ℕ) × List ℕ) c =>
          if (lookupList c st.1).isSome then st
          else (insertList c (distance + 1) st.1, st.2 ++ [c]))
        (distanceMap, queue)
      bfsGo nodeMap fuel st.1 st.2

/-- Total pops are bounded by one (the source) plus the total number of
adjacency entries, because every push is guarded by first insertion into the
distance map. -/
def bfsFuel (nodeMap : List (ℕ × List ℕ)) : ℕ :=
  2 + (nodeMap.map (fun e => e.2.length)).sum

def calculateDistanceMap (sourceNode : ℕ) (nodeMap : List (ℕ × List ℕ)) :
    List (ℕ × ℕ) :=
  bfsGo nodeMap (bfsFuel nodeMap) [(sourceNode, 0)] [sourceNode]

/-! ### `node_graph.rs`: backward path reconstruction -/

/-- `Iterator::min_by_key` over the recorded distances: keeps the first
element attaining the minimum. -/
def minByDistance (distanceMap : List (ℕ × ℕ)) (candidates : List ℕ) : Option ℕ :=
  candidates.foldl
    (fun best c =>
      match best with
      | none => some c
      | some b =>
        if (lookupList c distanceMap).getD 0 < (lookupList b distanceMap).getD 0 then some c
        else best)
    none

/-- The backward walk of `calculate_shortest_path`.  The `expect` panics of
the source (node missing from the reverse map, or no candidate with a
distance) are modelled as `none`.  `fuel` bounds the loop; the source loop
terminates because the BFS distance of the walked node strictly decreases,
so `|distanceMap| + 1` iterations always suffice. -/
def backwardWalkGo (sourceNode : ℕ) (reverseNodeMap : List (ℕ × List ℕ))
    (distanceMap : List (ℕ × ℕ)) :
    ℕ → ℕ → List ℕ → Option (List ℕ)
  | 0, _, _ => none
  | fuel + 1, node, acc =>
    match lookupList node reverseNodeMap with
    | none => none
    | some connections =>
      let candidates := connections.filter (fun c => (lookupList c distanceMap).isSome)
      match minByDistance distanceMap candidates with
      | none => none
      | some next =>
        let acc2 := acc ++ [next]
        if next = sourceNode then some acc2.reverse
        else backwardWalkGo sourceNode reverseNodeMap distanceMap fuel next acc2

def calculateShortestPath (sourceNode destNode : ℕ)
    (nodeMap reverseNodeMap : List (ℕ × List ℕ)) : Option (List ℕ) :=
  let distanceMap := calculateDistanceMap sourceNode nodeMap
  if (lookupList destNode distanceMap).isSome then
    backwardWalkGo sourceNode reverseNodeMap distanceMap
      (distanceMap.length + 1) destNode [destNode]
  else none

def calculateShortestPathMap (sourceNodes destNodes : List ℕ)
    (nodeMap reverseNodeMap : List (ℕ × List ℕ)) : List ((ℕ × ℕ) × List ℕ) :=
  sourceNodes.foldl
    (fun m sourceNode =>
      destNodes.foldl
        (fun m destNode =>
          match calculateShortestPath sourceNode destNode nodeMap reverseNodeMap with
          | some shortestPath => insertList (sourceNode, destNode) shortestPath m
          | none => m)
        m)
    []

def calculateReverseNodeMap (nodeMap : List (ℕ × List ℕ)) : List (ℕ × List ℕ) :=
  nodeMap.foldl
    (fun m e => e.2.foldl (fun m connection => adjacencyInsert connection e.1 m) m)
    []

/-! ### `node_graph.rs`: graph construction -/

/-- `NodeGraph::new`.  Note that the source performs no validation at all:
it classifies nodes and builds the derived maps in one pass over `edges`
and never fails. -/
def NodeGraph.new (nodes : List Node) (edges : List ((ℕ × ℕ) × EdgeData)) : NodeGraph :=
  let initial := List.range nodes.length
  let st := edges.foldl
    (fun (st : List ℕ × List ℕ × List (ℕ × List ℕ)) e =>
      (st.1.erase e.1.2, st.2.1.erase e.1.1, adjacencyInsert e.1.1 e.1.2 st.2.2))
    (initial, initial, [])
  let sourceNodes := st.1
  let destNodes := st.2.1
  let nodeMap := st.2.2
  let reverseNodeMap := calculateReverseNodeMap nodeMap
  let shortestPathMap := calculateShortestPathMap sourceNodes destNodes nodeMap reverseNodeMap
  { nodes, edges, sourceNodes, destNodes, nodeMap, reverseNodeMap, shortestPathMap,
    nodeReservationMap := [] }

/-- The four-arm intersection graph of `NodeGraph::create_nightmare`
(12 nodes, 16 edges, none of them priority). -/
def NodeGraph.createNightmare : NodeGraph :=
  let nodePositions : List Vec3 :=
    [⟨-1, 0, 10⟩, ⟨1, 0, 10⟩,
     ⟨-1, 0, -10⟩, ⟨1, 0, -10⟩,
     ⟨-10, 0, -1⟩, ⟨-10, 0, 1⟩,
     ⟨10, 0, -1⟩, ⟨10, 0, 1⟩,
     ⟨-1, 0, 1⟩, ⟨1, 0, 1⟩, ⟨-1, 0, -1⟩, ⟨1, 0, -1⟩]
  let nodes := nodePositions.map (fun position => Node.mk position)
  let edges : List ((ℕ × ℕ) × EdgeData) :=
    [((1, 9), ⟨false⟩), ((2, 10), ⟨false⟩), ((6, 11), ⟨false⟩), ((5, 8), ⟨false⟩),
     ((9, 7), ⟨false⟩), ((11, 3), ⟨false⟩), ((10, 4), ⟨false⟩), ((8, 0), ⟨false⟩),
     ((9, 11), ⟨false⟩), ((9, 10), ⟨false⟩), ((11, 10), ⟨false⟩), ((11, 8), ⟨false⟩),
     ((10, 8), ⟨false⟩), ((10, 9), ⟨false⟩), ((8, 9), ⟨false⟩), ((8, 11), ⟨false⟩)]
  NodeGraph.new nodes edges

/-! ### `vehicles.rs`: vehicle state and getters -/

def minSpeed : ℚ := 4

def maxSpeed : ℚ := 10

structure Vehicle where
  id : ℕ
  path : List ℕ
  pathIndex : ℕ
  edgePosition : ℚ
  speed : ℚ
deriving DecidableEq, Repr

/-- `Vehicle::new`; `rand::random::<f32>()` is modelled by the explicit
parameter `rand`. -/
def Vehicle.new (id : ℕ) (path : List ℕ) (rand : ℚ) : Vehicle :=
  { id, path, pathIndex := 0, edgePosition := 0,
    speed := minSpeed + (maxSpeed - minSpeed) * rand }

def Vehicle.getCurrentNodeIndex (v : Vehicle) : ℕ := v.path.getD v.pathIndex 0

def Vehicle.getNextNodeIndex (v : Vehicle) : Option ℕ :=
  if v.pathIndex = v.path.length - 1 then none
  else some (v.path.getD (v.pathIndex + 1) 0)

def Vehicle.getEdge (v : Vehicle) : Option (ℕ × ℕ) :=
  match v.getNextNodeIndex with
  | none => none
  | some nextNode => some (v.getCurrentNodeIndex, nextNode)

def Vehicle.getWorldPosition (v : Vehicle) (g : NodeGraph) : Vec3 :=
  let currentNodePos := (g.getNode v.getCurrentNodeIndex).position
  match v.getNextNodeIndex with
  | none => currentNodePos
  | some nextNodeIndex =>
    currentNodePos.add
      (((g.getNode nextNodeIndex).position.sub currentNodePos).smul v.edgePosition)

/-! ### `vehicles.rs`: the per-tick vehicle snapshot -/

structure VehicleCollection where
  vehicles : List (ℕ × Vehicle)
  vehicleEdgeMap : List ((ℕ × ℕ) × List ℕ)
deriving DecidableEq, Repr

def VehicleCollection.empty : VehicleCollection := ⟨[], []⟩

def VehicleCollection.add (coll : VehicleCollection) (v : Vehicle) : VehicleCollection :=
  match v.getEdge with
  | none => coll
  | some edge =>
    { vehicles := insertList v.id v coll.vehicles,
      vehicleEdgeMap := pushToEntry edge v.id coll.vehicleEdgeMap }

/-- `Vehicle::get_next_vehicle_edge_distance`: smallest positive
edge-position gap to another vehicle on the same directed edge. -/
def Vehicle.getNextVehicleEdgeDistance (v : Vehicle) (coll : VehicleCollection) :
    Option ℚ :=
  match v.getEdge with
  | none => none
  | some edge =>
    match lookupList edge coll.vehicleEdgeMap with
    | none => none
    | some vehiclesOnEdge =>
      vehiclesOnEdge.foldl
        (fun closestVehicle vehicleId =>
          match lookupList vehicleId coll.vehicles with
          | none => closestVehicle
          | some w =>
            let vehicleDistance := w.edgePosition - v.edgePosition
            if vehicleDistance ≤ 0 then closestVehicle
            else
              match closestVehicle with
              | none => some vehicleDistance
              | some c => if vehicleDistance < c then some vehicleDistance else closestVehicle)
        none

/-! ### `vehicles.rs`: kinematics -/

def followDistance : ℚ := 7 / 10

/-- The node buffer used by `drive_edge` / `should_wait_at_node`. -/
def driveNodeBuffer : ℚ := 9 / 10

def Vehicle.shouldWaitAtNode (v : Vehicle) (g : NodeGraph)
    (edgeBuffer newEdgePosition : ℚ) : Bool :=
  match v.getNextNodeIndex with
  | none => false
  | some nextNodeIndex =>
    if v.pathIndex = v.path.length - 2 then false
    else
      let distanceToNextNode := 1 - newEdgePosition
      if distanceToNextNode > edgeBuffer then false
      else
        match lookupList nextNodeIndex g.nodeReservationMap with
        | none => false
        | some vehicleIdWithReservation => decide (v.id ≠ vehicleIdWithReservation)

/-- `Vehicle::drive_edge`: returns the updated vehicle and the leftover
world-space distance (positive exactly when the edge end was overshot). -/
def Vehicle.driveEdge (v : Vehicle) (g : NodeGraph) (coll : VehicleCollection)
    (distance : ℚ) : Vehicle × ℚ :=
  match v.getNextNodeIndex with
  | none => (v, 0)
  | some nextNodeIndex =>
    let currentNode := g.getNode v.getCurrentNodeIndex
    let nextNode := g.getNode nextNodeIndex
    let edgeVector := nextNode.position.sub currentNode.position
    let edgeLength := edgeVector.length
    let edgeMoveAmount := distance / edgeLength
    let edgeMoveAmount :=
      match v.getNextVehicleEdgeDistance coll with
      | none => edgeMoveAmount
      | some nextVehicleDistance =>
        let edgeFollowDistance := followDistance / edgeLength
        let followPoint := nextVehicleDistance - edgeFollowDistance
        if followPoint < edgeMoveAmount then followPoint else edgeMoveAmount
    let newEdgePosition := v.edgePosition + edgeMoveAmount
    let edgeBuffer := driveNodeBuffer / edgeLength
    if v.shouldWaitAtNode g edgeBuffer newEdgePosition then
      ({ v with edgePosition := 1 - edgeBuffer }, 0)
    else if v.edgePosition + edgeMoveAmount > 1 then
      ({ v with pathIndex := v.pathIndex + 1, edgePosition := 0 },
       (newEdgePosition - 1) * edgeVector.length)
    else ({ v with edgePosition := newEdgePosition }, 0)

/-- World-space length of the vehicle's current edge, as `drive_edge`
computes it. -/
def Vehicle.currentEdgeLength (v : Vehicle) (g : NodeGraph) : ℚ :=
  match v.getNextNodeIndex with
  | none => 0
  | some nextNodeIndex =>
    (((g.getNode nextNodeIndex).position).sub
      ((g.getNode v.getCurrentNodeIndex).position)).length

/-- One unrolling of the `while remaining_distance > 0.` loop of
`Vehicle::drive` per unit of fuel. -/
def Vehicle.driveGo (g : NodeGraph) (coll : VehicleCollection) :
    ℕ → Vehicle → ℚ → Vehicle × ℚ
  | 0, v, remainingDistance => (v, remainingDistance)
  | fuel + 1, v, remainingDistance =>
    if remainingDistance > 0 then
      let st := v.driveEdge g coll remainingDistance
      Vehicle.driveGo g coll fuel st.1 st.2
    else (v, remainingDistance)

/-- `Vehicle::drive`.  The source loop needs at most `path.length`
iterations (each iteration with positive leftover advances `path_index`,
see the termination theorem below), so that fuel is always sufficient. -/
def Vehicle.drive (v : Vehicle) (g : NodeGraph) (coll : VehicleCollection)
    (distance : ℚ) : Vehicle :=
  (Vehicle.driveGo g coll v.path.length v distance).1

/-! ### `vehicles.rs`: reservation release pass -/

/-- The node buffer used by `clear_node_reservations` (the release buffer). -/
def clearNodeBuffer : ℚ := 3 / 10

/-- The node buffer used by `create_node_reservations` (the acquisition
buffer). -/
def createNodeBuffer : ℚ := 9 / 10

/-- The loop body condition of `clear_node_reservations` for one
reservation entry `(node_index, vehicle_id)`: resolvable, and the holding
vehicle is farther than `clearNodeBuffer` from the node.  Entries whose
node index or vehicle id cannot be resolved are skipped (kept). -/
def clearPredicate (coll : VehicleCollection) (g : NodeGraph) (e : ℕ × ℕ) : Bool :=
  match g.nodes.get? e.1 with
  | none => false
  | some node =>
    match lookupList e.2 coll.vehicles with
    | none => false
    | some vehicle =>
      decide ((node.position.sub (vehicle.getWorldPosition g)).length > clearNodeBuffer)

/-- `clear_node_reservations`: collect every reservation entry satisfying
`clearPredicate`, then remove those node indices from the table. -/
def clearNodeReservations (coll : VehicleCollection) (g : NodeGraph) : NodeGraph :=
  let clearedNodes := (g.nodeReservationMap.filter (clearPredicate coll g)).map Prod.fst
  clearedNodes.foldl
    (fun gr nodeIndex =>
      { gr with nodeReservationMap := removeList nodeIndex gr.nodeReservationMap })
    g

/-! ### `vehicles.rs`: reservation acquire pass -/

def defaultEdgeData : EdgeData := ⟨false⟩

def defaultVehicle : Vehicle :=
  { id := 0, path := [], pathIndex := 0, edgePosition := 0, speed := 0 }

/-- The in-buffer test of the acquire pass:
`(vehicle.get_world_position(g) - node.position).length() < node_buffer`.
The `unwrap` of the vehicle lookup is modelled by a default. -/
def vehicleWithinBuffer (g : NodeGraph) (coll : VehicleCollection) (node : Node)
    (vehicleId : ℕ) : Bool :=
  let vehicle := (lookupList vehicleId coll.vehicles).getD defaultVehicle
  decide (((vehicle.getWorldPosition g).sub node.position).length < createNodeBuffer)

/-- The body of the `for vehicle_id in vehicles` loop of
`create_node_reservations`: overwrite the grant with every vehicle found
within the buffer, tagging it with the scanned edge's priority flag. -/
def reserveScanVehicle (g : NodeGraph) (coll : VehicleCollection) (node : Node)
    (priority : Bool) (st2 : Option ℕ × Bool) (vehicleId : ℕ) : Option ℕ × Bool :=
  if vehicleWithinBuffer g coll node vehicleId then (some vehicleId, priority) else st2

/-- The body of the `for prev_node_index in prev_nodes` loop of
`create_node_reservations`: state is `(reserved_vehicle, is_priority)`. -/
def reserveScanEdge (g : NodeGraph) (coll : VehicleCollection) (node : Node)
    (nodeIndex : ℕ) (st : Option ℕ × Bool) (prevNodeIndex : ℕ) : Option ℕ × Bool :=
  let edge := (prevNodeIndex, nodeIndex)
  let edgeData := (lookupList edge g.edges).getD defaultEdgeData
  if st.2 && !edgeData.priority then st
  else
    match lookupList edge coll.vehicleEdgeMap with
    | none => st
    | some vehicles =>
      vehicles.foldl (reserveScanVehicle g coll node edgeData.priority) st

/-- The priority flag the acquire pass reads for an incoming edge (the
source `unwrap`s the lookup; the default is never used on consistent
graphs). -/
def edgePriorityAt (g : NodeGraph) (edge : ℕ × ℕ) : Bool :=
  ((lookupList edge g.edges).getD defaultEdgeData).priority

/-- The vehicle ids the snapshot holds for a directed edge. -/
def edgeVehicleIds (coll : VehicleCollection) (edge : ℕ × ℕ) : List ℕ :=
  (lookupList edge coll.vehicleEdgeMap).getD []

/-- The whole incoming-edge scan for one unreserved node. -/
def findReservation (g : NodeGraph) (coll : VehicleCollection) (node : Node)
    (nodeIndex : ℕ) (prevNodes : List ℕ) : Option ℕ × Bool :=
  prevNodes.foldl (reserveScanEdge g coll node nodeIndex) (none, false)

/-- The body of the `for node_index in 0..node_graph.nodes.len()` loop of
`create_node_reservations`. -/
def reservePassStep (coll : VehicleCollection) (gr : NodeGraph) (nodeIndex : ℕ) :
    NodeGraph :=
  if (lookupList nodeIndex gr.nodeReservationMap).isSome then gr
  else
    match lookupList nodeIndex gr.reverseNodeMap with
    | none => gr
    | some prevNodes =>
      match (findReservation gr coll (gr.getNode nodeIndex) nodeIndex prevNodes).1 with
      | none => gr
      | some vehicleId =>
        { gr with nodeReservationMap := insertList nodeIndex vehicleId gr.nodeReservationMap }

def createNodeReservations (coll : VehicleCollection) (g : NodeGraph) : NodeGraph :=
  (List.range g.nodes.length).foldl (reservePassStep coll) g

/-! ### `vehicles.rs`: spawning -/

/-- The core of `spawn_vehicle` after the limiter granted the attempt:
drawing a random entry of `shortest_path_map` (the `IteratorRandom::choose`
is modelled by the index `choice`, reduced modulo the number of entries, so
that every entry can be drawn and `none` arises exactly on the empty map)
and building the vehicle.  The `expect("No path found")` panic on an empty
map is modelled as an `Except.error`. -/
def spawnVehicle (shortestPathMap : List ((ℕ × ℕ) × List ℕ)) (choice : ℕ)
    (vehicleId : ℕ) (rand : ℚ) : Except String Vehicle :=
  match shortestPathMap.get? (choice % shortestPathMap.length) with
  | none => Except.error "No path found"
  | some entry => Except.ok (Vehicle.new vehicleId entry.2 rand)

/-! ### Derived views of `drive_edge` used by the kinematics theorems -/

/-- The parametric move amount `drive_edge` ends up with after the
car-following clamp (its two `let edge_move_amount` steps). -/
def computedMove (g : NodeGraph) (coll : VehicleCollection) (v : Vehicle) (d : ℚ) : ℚ :=
  match v.getNextVehicleEdgeDistance coll with
  | none => d / v.currentEdgeLength g
  | some nextVehicleDistance =>
    if nextVehicleDistance - followDistance / v.currentEdgeLength g
        < d / v.currentEdgeLength g then
      nextVehicleDistance - followDistance / v.currentEdgeLength g
    else d / v.currentEdgeLength g

/-- World-space length of the i-th edge of the vehicle's path. -/
def Vehicle.edgeLengthAt (v : Vehicle) (g : NodeGraph) (i : ℕ) : ℚ :=
  ((g.getNode (v.path.getD (i + 1) 0)).position.sub
    (g.getNode (v.path.getD i 0)).position).length

/-- Every edge of the vehicle's path is at least `driveNodeBuffer` long (the
source comment demands exactly this of the graph: the buffer must be
smaller than the distance between connected nodes). -/
def pathEdgesAtLeastBuffer (g : NodeGraph) (v : Vehicle) : Bool :=
  (List.range (v.path.length - 1)).all
    (fun i => decide (driveNodeBuffer ≤ v.edgeLengthAt g i))

/-- The intersection-buffer invariant for one vehicle: whenever the next
node exists, is not the vehicle's final destination, and is reserved by a
different vehicle, the vehicle sits at most at the buffer boundary
`1 - driveNodeBuffer / edge_length` of its current edge. -/
def bufferInvariantB (g : NodeGraph) (v : Vehicle) : Bool :=
  match v.getNextNodeIndex with
  | none => true
  | some n =>
    if v.pathIndex = v.path.length - 2 then true
    else
      match lookupList n g.nodeReservationMap with
      | none => true
      | some w =>
        if v.id = w then true
        else decide (v.edgePosition ≤ 1 - driveNodeBuffer / v.currentEdgeLength g)

/-! ### Concrete fixtures used by witnesses and counterexamples -/

/-- A three-node chain with 10-unit edges. -/
def chainExampleGraph : NodeGraph :=
  NodeGraph.new [⟨⟨0, 0, 0⟩⟩, ⟨⟨10, 0, 0⟩⟩, ⟨⟨20, 0, 0⟩⟩]
    [((0, 1), ⟨false⟩), ((1, 2), ⟨false⟩)]

/-- The chain graph with node 1 reserved by (another) vehicle 5. -/
def chainReservedGraph : NodeGraph :=
  { chainExampleGraph with nodeReservationMap := [(1, 5)] }

/-- Vehicle 0 at the start of the chain, travelling 9.5 units per tick. -/
def chainExampleVehicle : Vehicle := ⟨0, [0, 1, 2], 0, 0, 19 / 2⟩

/-- A single 10-unit edge for the car-following fixture. -/
def followExampleGraph : NodeGraph :=
  NodeGraph.new [⟨⟨0, 0, 0⟩⟩, ⟨⟨10, 0, 0⟩⟩] [((0, 1), ⟨false⟩)]

/-- The lead vehicle at edge position 0.52. -/
def followLeadVehicle : Vehicle := ⟨1, [0, 1], 0, 13 / 25, 0⟩

def followExampleColl : VehicleCollection := ⟨[(1, followLeadVehicle)], [((0, 1), [1])]⟩

/-- The follower at edge position 0.5, just 0.02 behind the lead. -/
def followExampleVehicle : Vehicle := ⟨0, [0, 1], 0, 1 / 2, 1⟩

/-! ### Concrete fixtures used by witnesses and counterexamples (maps) -/

/-- Release-pass fixture: node 0 at the origin is reserved by vehicle 7,
which sits at distance 1 (farther than the release buffer). -/
def clearExampleGraph : NodeGraph :=
  ⟨[⟨⟨0, 0, 0⟩⟩, ⟨⟨1, 0, 0⟩⟩], [], [], [], [], [], [], [(0, 7)]⟩

def clearExampleVehicle : Vehicle := ⟨7, [1], 0, 0, 0⟩

def clearExampleColl : VehicleCollection := ⟨[(7, clearExampleVehicle)], []⟩

/-- Acquire-pass fixture: node 2 has a priority incoming edge from node 0
and a non-priority incoming edge from node 1. -/
def prioExampleGraph : NodeGraph :=
  NodeGraph.new [⟨⟨-10, 0, 0⟩⟩, ⟨⟨10, 0, 0⟩⟩, ⟨⟨0, 0, 0⟩⟩]
    [((0, 2), ⟨true⟩), ((1, 2), ⟨false⟩)]

/-- Vehicle 5, on the non-priority edge (1,2), 0.5 world units from node 2. -/
def prioExampleVehicle : Vehicle := ⟨5, [1, 2], 0, 19 / 20, 0⟩

/-- Snapshot with no vehicle anywhere on the priority edge (0,2). -/
def prioExampleColl : VehicleCollection := ⟨[(5, prioExampleVehicle)], [((1, 2), [5])]⟩

/-- Vehicle 9, on the priority edge (0,2), 0.5 world units from node 2. -/
def prioExampleVehicleB : Vehicle := ⟨9, [0, 2], 0, 19 / 20, 0⟩

/-- Snapshot with vehicles within the buffer on both incoming edges. -/
def prioExampleCollB : VehicleCollection :=
  ⟨[(5, prioExampleVehicle), (9, prioExampleVehicleB)], [((0, 2), [9]), ((1, 2), [5])]⟩

/-- Acquire-pass fixture for the nearest-vehicle question: one incoming
edge, two vehicles within the buffer, the earlier-listed one nearer. -/
def nearExampleGraph : NodeGraph :=
  NodeGraph.new [⟨⟨10, 0, 0⟩⟩, ⟨⟨0, 0, 0⟩⟩] [((0, 1), ⟨false⟩)]

/-- Vehicle 1, 0.5 world units from node 1 (the nearer vehicle). -/
def nearExampleV1 : Vehicle := ⟨1, [0, 1], 0, 19 / 20, 0⟩

/-- Vehicle 2, 0.8 world units from node 1 (farther, listed second). -/
def nearExampleV2 : Vehicle := ⟨2, [0, 1], 0, 23 / 25, 0⟩

def nearExampleColl : VehicleCollection :=
  ⟨[(1, nearExampleV1), (2, nearExampleV2)], [((0, 1), [1, 2])]⟩

/-! ### Claim C8: the spawn rate limiter -/

/-- Claim C8: `try_spawn` returns `true` (recording the current time as the
last successful spawn) if and only if no prior successful spawn exists or
the time elapsed since the last successful spawn is at least the configured
interval; when it returns `false` the limiter state is unchanged. -/
theorem trySpawn_spec (lim : VehicleSpawnLimiter) (now : ℕ) :
    ((lim.trySpawn now).1 = true ↔
      lim.lastSpawned = none ∨ ∃ t, lim.lastSpawned = some t ∧ lim.interval ≤ now - t) ∧
    ((lim.trySpawn now).1 = true →
      (lim.trySpawn now).2 = { lim with lastSpawned := some now }) ∧
    ((lim.trySpawn now).1 = false → (lim.trySpawn now).2 = lim) := by
  unfold VehicleSpawnLimiter.trySpawn
  cases h : lim.lastSpawned with
  | none => simp
  | some t =>
    by_cases hlt : now - t < lim.interval
    · simp only [hlt, if_true]
      refine ⟨?_, ?_, ?_⟩
      · simp
        omega
      · simp
      · simp
    · simp only [hlt, if_false]
      refine ⟨?_, ?_, ?_⟩
      · simp
        omega
      · simp
      · simp

/-- Witness for C8: with interval 5 and a success recorded at time 3, a call
at time 10 succeeds and records time 10. -/
theorem trySpawn_spec_witness :
    ((VehicleSpawnLimiter.mk 5 (some 3)).trySpawn 10).1 = true ∧
    ((VehicleSpawnLimiter.mk 5 (some 3)).trySpawn 10).2 = VehicleSpawnLimiter.mk 5 (some 10) :=
  ⟨by decide, (trySpawn_spec (VehicleSpawnLimiter.mk 5 (some 3)) 10).2.1 (by decide)⟩

/-! ### Claim C6: spawning from the path index -/

/-- Counterexample to C6 as stated: on an empty `shortest_path_map` the
spawn does not complete without error — the source panics
(`expect("No path found")`), modelled as an `Except.error`. -/
theorem spawnVehicle_empty_counterexample :
    spawnVehicle [] 0 0 0 = Except.error "No path found" := rfl

/-- Claim C6 (amended): on a granted spawn attempt, an empty Path Index
makes the spawn fail with the "No path found" panic; otherwise the drawn
key is an entry of the Path Index (the random draw is modelled by the
`choice` index reduced modulo the number of entries) and the new vehicle is
built from that entry's path. -/
theorem spawnVehicle_spec (m : List ((ℕ × ℕ) × List ℕ)) (choice vehicleId : ℕ) (r : ℚ) :
    (m = [] → spawnVehicle m choice vehicleId r = Except.error "No path found") ∧
    (m ≠ [] → ∃ entry ∈ m,
      m.get? (choice % m.length) = some entry ∧
      spawnVehicle m choice vehicleId r = Except.ok (Vehicle.new vehicleId entry.2 r)) := by
  constructor
  · rintro rfl
    rfl
  · intro hne
    have hlen : 0 < m.length := List.length_pos.mpr hne
    have hlt : choice % m.length < m.length := Nat.mod_lt _ hlen
    refine ⟨m.get ⟨choice % m.length, hlt⟩, List.get_mem m _ hlt, List.get?_eq_get hlt, ?_⟩
    unfold spawnVehicle
    rw [List.get?_eq_get hlt]

/-- Witness for C6: on a one-entry Path Index, the spawn draws that entry. -/
theorem spawnVehicle_spec_witness :
    ∃ entry ∈ [((1, 7), [1, 9, 7])],
      [((1, 7), [1, 9, 7])].get? (0 % [((1, 7), [1, 9, 7])].length) = some entry ∧
      spawnVehicle [((1, 7), [1, 9, 7])] 0 42 (1 / 2) =
        Except.ok (Vehicle.new 42 entry.2 (1 / 2)) :=
  (spawnVehicle_spec [((1, 7), [1, 9, 7])] 0 42 (1 / 2)).2 (by decide)

/-! ### Claim C2: graph construction performs no validation -/

/-- Counterexample to C2 as stated: an edge whose destination index 5 is out
of range for a single-node graph is accepted — construction succeeds, the
invalid edge is stored and even appears in the forward adjacency map, with
no `InvalidGraph` failure. -/
theorem nodeGraphNew_counterexample :
    (NodeGraph.new [defaultNode] [((0, 5), ⟨false⟩)]).edges = [((0, 5), ⟨false⟩)] ∧
    ([defaultNode] : List Node).length ≤ 5 ∧
    lookupList 0 (NodeGraph.new [defaultNode] [((0, 5), ⟨false⟩)]).nodeMap = some [5] := by
  refine ⟨rfl, by decide, rfl⟩

/-- Claim C2 (amended): `NodeGraph::new` performs no validation and never
fails: for every input it returns a graph holding exactly the given nodes
and edges (out-of-range indices included) and an empty reservation table.
Duplicate ordered pairs cannot arise only because the edge collection is
keyed by the ordered pair. -/
theorem nodeGraphNew_total (nodes : List Node) (edges : List ((ℕ × ℕ) × EdgeData)) :
    (NodeGraph.new nodes edges).nodes = nodes ∧
    (NodeGraph.new nodes edges).edges = edges ∧
    (NodeGraph.new nodes edges).nodeReservationMap = [] :=
  ⟨rfl, rfl, rfl⟩

/-! ### Claim C7: reference shortest paths on the four-arm intersection -/

/-- Claim C7: on the `create_nightmare` graph the Path Index maps (1,7) to
[1,9,7], (6,0) to [6,11,8,0] and (2,7) to [2,10,9,7].  (Each backward
reconstruction step for these pairs has a unique minimum-distance
candidate, so the hash-iteration order of the source cannot change them.) -/
theorem createNightmare_shortest_paths :
    lookupList (1, 7) NodeGraph.createNightmare.shortestPathMap = some [1, 9, 7] ∧
    lookupList (6, 0) NodeGraph.createNightmare.shortestPathMap = some [6, 11, 8, 0] ∧
    lookupList (2, 7) NodeGraph.createNightmare.shortestPathMap = some [2, 10, 9, 7] :=
  ⟨rfl, rfl, rfl⟩

/-! ### Association-list lemmas -/

theorem lookupList_removeList {α β : Type} [DecidableEq α] (k k' : α) (m : List (α × β)) :
    lookupList k (removeList k' m) = if k = k' then none else lookupList k m := by
  induction m with
  | nil => simp [removeList, lookupList]
  | cons e rest ih =>
    rcases e with ⟨a, b⟩
    simp only [removeList, List.filter_cons] at ih ⊢
    by_cases hak : a = k'
    · subst hak
      rw [if_neg (by simp)]
      rw [ih]
      by_cases hka : k = a
      · subst hka
        simp
      · simp [lookupList, hka]
    · rw [if_pos (by simp [hak])]
      by_cases hka : k = a
      · subst hka
        simp [lookupList, hak]
      · rw [lookupList, if_neg hka, ih]
        by_cases hkk : k = k'
        · simp [hkk]
        · simp [hkk, lookupList, hka]

theorem lookup_removeFold (ks : List ℕ) (m : List (ℕ × ℕ)) (k : ℕ) :
    lookupList k (ks.foldl (fun m' k' => removeList k' m') m) =
      if k ∈ ks then none else lookupList k m := by
  induction ks generalizing m with
  | nil => simp
  | cons a ks ih =>
    simp only [List.foldl_cons, List.mem_cons]
    rw [ih]
    by_cases hka : k = a
    · subst hka
      simp [lookupList_removeList]
    · by_cases hks : k ∈ ks
      · simp [hks]
      · simp [hks, hka, lookupList_removeList]

theorem removeFold_graph (ks : List ℕ) (g : NodeGraph) :
    ((ks.foldl
        (fun gr nodeIndex =>
          { gr with nodeReservationMap := removeList nodeIndex gr.nodeReservationMap })
        g)).nodeReservationMap =
      ks.foldl (fun m' k' => removeList k' m') g.nodeReservationMap := by
  induction ks generalizing g with
  | nil => rfl
  | cons a ks ih =>
    simp only [List.foldl_cons]
    rw [ih]

theorem clearNodeReservations_resMap (coll : VehicleCollection) (g : NodeGraph) :
    (clearNodeReservations coll g).nodeReservationMap =
      ((g.nodeReservationMap.filter (clearPredicate coll g)).map Prod.fst).foldl
        (fun m' k' => removeList k' m') g.nodeReservationMap := by
  unfold clearNodeReservations
  exact removeFold_graph _ g

theorem lookupList_of_mem_nodup {α β : Type} [DecidableEq α] {m : List (α × β)} {e : α × β}
    (hnodup : (m.map Prod.fst).Nodup) (hmem : e ∈ m) :
    lookupList e.1 m = some e.2 := by
  induction m with
  | nil => cases hmem
  | cons a rest ih =>
    rcases List.mem_cons.mp hmem with rfl | hmem'
    · rw [lookupList, if_pos rfl]
    · rw [lookupList]
      have hne : e.1 ≠ a.1 := by
        intro hcontra
        have : a.1 ∈ rest.map Prod.fst := by
          rw [← hcontra]
          exact List.mem_map_of_mem Prod.fst hmem'
        exact (List.nodup_cons.mp hnodup).1 this
      rw [if_neg hne]
      exact ih (List.nodup_cons.mp hnodup).2 hmem'

theorem mem_of_lookupList {α β : Type} [DecidableEq α] {m : List (α × β)} {k : α} {v : β}
    (h : lookupList k m = some v) : (k, v) ∈ m := by
  induction m with
  | nil => cases h
  | cons a rest ih =>
    rcases a with ⟨a1, a2⟩
    rw [lookupList] at h
    by_cases hka : k = a1
    · rw [if_pos hka] at h
      cases h
      subst hka
      exact List.mem_cons_self _ _
    · rw [if_neg hka] at h
      exact List.mem_cons_of_mem _ (ih h)

/-! ### Claim C5: the release pass and its buffer -/

/-- Counterexample to C5 as stated: the release buffer (0.3) is strictly
smaller than the acquisition buffer (0.9), not strictly larger. -/
theorem clearBuffers_counterexample :
    clearNodeBuffer = 3 / 10 ∧ createNodeBuffer = 9 / 10 ∧
    ¬ clearNodeBuffer > createNodeBuffer := by
  with_unfolding_all decide

/-- Claim C5 (amended): the release pass removes a resolvable reservation
exactly when the holding vehicle's world distance to the node exceeds the
release buffer — but that release buffer (0.3) is strictly smaller than the
acquisition buffer (0.9), not larger. -/
theorem clearNodeReservations_spec (coll : VehicleCollection) (g : NodeGraph)
    (ni vid : ℕ) (node : Node) (veh : Vehicle)
    (hnodup : (g.nodeReservationMap.map Prod.fst).Nodup)
    (hres : lookupList ni g.nodeReservationMap = some vid)
    (hnode : g.nodes.get? ni = some node)
    (hveh : lookupList vid coll.vehicles = some veh) :
    (lookupList ni (clearNodeReservations coll g).nodeReservationMap = none ↔
      (node.position.sub (veh.getWorldPosition g)).length > clearNodeBuffer) ∧
    clearNodeBuffer < createNodeBuffer := by
  constructor
  · rw [clearNodeReservations_resMap, lookup_removeFold]
    have hpred : clearPredicate coll g (ni, vid) = true ↔
        (node.position.sub (veh.getWorldPosition g)).length > clearNodeBuffer := by
      unfold clearPredicate
      rw [hnode, hveh]
      simp
    constructor
    · intro hnone
      by_cases hmem : ni ∈ (g.nodeReservationMap.filter (clearPredicate coll g)).map Prod.fst
      · obtain ⟨e, hef, hefst⟩ := List.mem_map.mp hmem
        obtain ⟨hem, hep⟩ := List.mem_filter.mp hef
        have hl : lookupList e.1 g.nodeReservationMap = some e.2 :=
          lookupList_of_mem_nodup hnodup hem
        rw [hefst, hres] at hl
        have he : e = (ni, vid) := by
          rcases e with ⟨e1, e2⟩
          simp only at hefst
          cases hl
          rw [hefst]
        rw [he] at hep
        exact hpred.mp hep
      · rw [if_neg hmem, hres] at hnone
        cases hnone
    · intro hdist
      have hmem : ni ∈ (g.nodeReservationMap.filter (clearPredicate coll g)).map Prod.fst := by
        refine List.mem_map.mpr ⟨(ni, vid), List.mem_filter.mpr ⟨mem_of_lookupList hres, ?_⟩, rfl⟩
        exact hpred.mpr hdist
      rw [if_pos hmem]
  · with_unfolding_all decide

/-- Witness for C5: vehicle 7 holds node 0 from distance 1 > 0.3, and the
release pass indeed drops the reservation. -/
theorem clearNodeReservations_spec_witness :
    (lookupList 0 (clearNodeReservations clearExampleColl clearExampleGraph).nodeReservationMap
        = none ↔
      ((Node.mk ⟨0, 0, 0⟩).position.sub
        (clearExampleVehicle.getWorldPosition clearExampleGraph)).length > clearNodeBuffer) ∧
    clearNodeBuffer < createNodeBuffer :=
  clearNodeReservations_spec clearExampleColl clearExampleGraph 0 7 (Node.mk ⟨0, 0, 0⟩)
    clearExampleVehicle (by with_unfolding_all decide) (by with_unfolding_all decide)
    (by with_unfolding_all decide) (by with_unfolding_all decide)

/-! ### Claims C3 and C4: the reservation acquire pass -/

theorem lookupList_insertList {α β : Type} [DecidableEq α] (k k' : α) (v : β)
    (m : List (α × β)) :
    lookupList k (insertList k' v m) = if k = k' then some v else lookupList k m := by
  induction m with
  | nil =>
    by_cases hkk : k = k' <;> simp [insertList, lookupList, hkk]
  | cons e rest ih =>
    rcases e with ⟨a, b⟩
    rw [insertList]
    by_cases hak : k' = a
    · subst hak
      by_cases hkk : k = k' <;> simp [lookupList, hkk]
    · simp only [if_neg hak]
      by_cases hka : k = a
      · subst hka
        rw [lookupList, if_pos rfl]
        rw [if_neg (fun hc => hak hc.symm), lookupList, if_pos rfl]
      · rw [lookupList, if_neg hka, ih, lookupList, if_neg hka]

theorem reserveScanVehicle_result (g : NodeGraph) (coll : VehicleCollection) (node : Node)
    (priority : Bool) (l : List ℕ) (st : Option ℕ × Bool) :
    l.foldl (reserveScanVehicle g coll node priority) st = st ∨
      ∃ vid ∈ l, vehicleWithinBuffer g coll node vid = true ∧
        l.foldl (reserveScanVehicle g coll node priority) st = (some vid, priority) := by
  induction l generalizing st with
  | nil => exact Or.inl rfl
  | cons a l ih =>
    rw [List.foldl_cons]
    by_cases hwb : vehicleWithinBuffer g coll node a = true
    · have hstep : reserveScanVehicle g coll node priority st a = (some a, priority) := by
        unfold reserveScanVehicle
        rw [if_pos hwb]
      rw [hstep]
      rcases ih (some a, priority) with heq | ⟨vid, hmem, hv, heq⟩
      · exact Or.inr ⟨a, List.mem_cons_self _ _, hwb, heq⟩
      · exact Or.inr ⟨vid, List.mem_cons_of_mem _ hmem, hv, heq⟩
    · have hstep : reserveScanVehicle g coll node priority st a = st := by
        unfold reserveScanVehicle
        rw [if_neg hwb]
      rw [hstep]
      rcases ih st with heq | ⟨vid, hmem, hv, heq⟩
      · exact Or.inl heq
      · exact Or.inr ⟨vid, List.mem_cons_of_mem _ hmem, hv, heq⟩

theorem reserveScanVehicle_keeps (g : NodeGraph) (coll : VehicleCollection) (node : Node)
    (priority : Bool) (l : List ℕ) (st : Option ℕ × Bool)
    (h : st.1.isSome = true ∧ st.2 = priority) :
    (l.foldl (reserveScanVehicle g coll node priority) st).1.isSome = true ∧
      (l.foldl (reserveScanVehicle g coll node priority) st).2 = priority := by
  induction l generalizing st with
  | nil => exact h
  | cons a l ih =>
    rw [List.foldl_cons]
    unfold reserveScanVehicle
    by_cases hwb : vehicleWithinBuffer g coll node a = true
    · rw [if_pos hwb]
      exact ih _ ⟨rfl, rfl⟩
    · rw [if_neg hwb]
      exact ih _ h

theorem reserveScanVehicle_hit (g : NodeGraph) (coll : VehicleCollection) (node : Node)
    (priority : Bool) (l : List ℕ) (st : Option ℕ × Bool)
    (h : ∃ vid ∈ l, vehicleWithinBuffer g coll node vid = true) :
    (l.foldl (reserveScanVehicle g coll node priority) st).1.isSome = true ∧
      (l.foldl (reserveScanVehicle g coll node priority) st).2 = priority := by
  induction l generalizing st with
  | nil =>
    obtain ⟨vid, hmem, _⟩ := h
    cases hmem
  | cons a l ih =>
    rw [List.foldl_cons]
    unfold reserveScanVehicle
    by_cases hwb : vehicleWithinBuffer g coll node a = true
    · rw [if_pos hwb]
      exact reserveScanVehicle_keeps g coll node priority l _ ⟨rfl, rfl⟩
    · rw [if_neg hwb]
      obtain ⟨vid, hmem, hv⟩ := h
      rcases List.mem_cons.mp hmem with rfl | hmem'
      · exact absurd hv hwb
      · exact ih _ ⟨vid, hmem', hv⟩

theorem reserveScanEdge_eq (g : NodeGraph) (coll : VehicleCollection) (node : Node)
    (ni : ℕ) (st : Option ℕ × Bool) (p : ℕ) :
    reserveScanEdge g coll node ni st p =
      if st.2 && !(edgePriorityAt g (p, ni)) then st
      else (edgeVehicleIds coll (p, ni)).foldl
        (reserveScanVehicle g coll node (edgePriorityAt g (p, ni))) st := by
  unfold reserveScanEdge edgePriorityAt edgeVehicleIds
  cases h : lookupList (p, ni) coll.vehicleEdgeMap
  · simp [h]
  · simp [h]

theorem reserveScanEdge_keeps (g : NodeGraph) (coll : VehicleCollection) (node : Node)
    (ni : ℕ) (st : Option ℕ × Bool) (p : ℕ)
    (h : st.1.isSome = true ∧ st.2 = true) :
    (reserveScanEdge g coll node ni st p).1.isSome = true ∧
      (reserveScanEdge g coll node ni st p).2 = true := by
  rw [reserveScanEdge_eq]
  by_cases hpri : edgePriorityAt g (p, ni) = true
  · rw [hpri]
    simp only [Bool.not_true, Bool.and_false, Bool.false_eq_true, if_false]
    exact reserveScanVehicle_keeps g coll node true _ st ⟨h.1, h.2⟩
  · have hfalse : edgePriorityAt g (p, ni) = false := by
      cases hp : edgePriorityAt g (p, ni)
      · rfl
      · exact absurd hp hpri
    rw [hfalse, h.2]
    simp only [Bool.not_false, Bool.and_true, if_true]
    exact h

theorem reserveScanEdge_r (g : NodeGraph) (coll : VehicleCollection) (node : Node)
    (ni : ℕ) (st : Option ℕ × Bool) (p : ℕ)
    (h : st.2 = true → st.1.isSome = true) :
    (reserveScanEdge g coll node ni st p).2 = true →
      (reserveScanEdge g coll node ni st p).1.isSome = true := by
  rw [reserveScanEdge_eq]
  split
  · exact h
  · intro h2
    rcases reserveScanVehicle_result g coll node (edgePriorityAt g (p, ni))
        (edgeVehicleIds coll (p, ni)) st with heq | ⟨vid, _, _, heq⟩
    · rw [heq] at h2 ⊢
      exact h h2
    · rw [heq]
      rfl

theorem reserveScanEdge_hit (g : NodeGraph) (coll : VehicleCollection) (node : Node)
    (ni : ℕ) (st : Option ℕ × Bool) (p : ℕ)
    (hpri : edgePriorityAt g (p, ni) = true)
    (hveh : ∃ vid ∈ edgeVehicleIds coll (p, ni), vehicleWithinBuffer g coll node vid = true) :
    (reserveScanEdge g coll node ni st p).1.isSome = true ∧
      (reserveScanEdge g coll node ni st p).2 = true := by
  rw [reserveScanEdge_eq, hpri]
  simp only [Bool.not_true, Bool.and_false, Bool.false_eq_true, if_false]
  have := reserveScanVehicle_hit g coll node true (edgeVehicleIds coll (p, ni)) st hveh
  exact ⟨this.1, this.2⟩

theorem reserveScanEdge_result (g : NodeGraph) (coll : VehicleCollection) (node : Node)
    (ni : ℕ) (st : Option ℕ × Bool) (p : ℕ) :
    reserveScanEdge g coll node ni st p = st ∨
      ∃ vid ∈ edgeVehicleIds coll (p, ni), vehicleWithinBuffer g coll node vid = true ∧
        reserveScanEdge g coll node ni st p = (some vid, edgePriorityAt g (p, ni)) := by
  rw [reserveScanEdge_eq]
  split
  · exact Or.inl rfl
  · exact reserveScanVehicle_result g coll node (edgePriorityAt g (p, ni)) _ st

theorem findReservation_fold_keeps (g : NodeGraph) (coll : VehicleCollection) (node : Node)
    (ni : ℕ) (l : List ℕ) (st : Option ℕ × Bool)
    (h : st.1.isSome = true ∧ st.2 = true) :
    (l.foldl (reserveScanEdge g coll node ni) st).1.isSome = true ∧
      (l.foldl (reserveScanEdge g coll node ni) st).2 = true := by
  induction l generalizing st with
  | nil => exact h
  | cons p l ih =>
    rw [List.foldl_cons]
    exact ih _ (reserveScanEdge_keeps g coll node ni st p h)

theorem findReservation_fold_r (g : NodeGraph) (coll : VehicleCollection) (node : Node)
    (ni : ℕ) (l : List ℕ) (st : Option ℕ × Bool)
    (h : st.2 = true → st.1.isSome = true) :
    (l.foldl (reserveScanEdge g coll node ni) st).2 = true →
      (l.foldl (reserveScanEdge g coll node ni) st).1.isSome = true := by
  induction l generalizing st with
  | nil => exact h
  | cons p l ih =>
    rw [List.foldl_cons]
    exact ih _ (reserveScanEdge_r g coll node ni st p h)

theorem findReservation_fold_hit (g : NodeGraph) (coll : VehicleCollection) (node : Node)
    (ni : ℕ) (l : List ℕ) (st : Option ℕ × Bool)
    (hr : st.2 = true → st.1.isSome = true)
    (h : ∃ p ∈ l, edgePriorityAt g (p, ni) = true ∧
      ∃ vid ∈ edgeVehicleIds coll (p, ni), vehicleWithinBuffer g coll node vid = true) :
    (l.foldl (reserveScanEdge g coll node ni) st).1.isSome = true ∧
      (l.foldl (reserveScanEdge g coll node ni) st).2 = true := by
  induction l generalizing st with
  | nil =>
    obtain ⟨p, hmem, _⟩ := h
    cases hmem
  | cons q l ih =>
    rw [List.foldl_cons]
    obtain ⟨p, hmem, hpri, hveh⟩ := h
    rcases List.mem_cons.mp hmem with rfl | hmem'
    · exact findReservation_fold_keeps g coll node ni l _
        (reserveScanEdge_hit g coll node ni st p hpri hveh)
    · exact ih _ (reserveScanEdge_r g coll node ni st q hr) ⟨p, hmem', hpri, hveh⟩

theorem findReservation_fold_result (g : NodeGraph) (coll : VehicleCollection) (node : Node)
    (ni : ℕ) (l : List ℕ) (st : Option ℕ × Bool) :
    l.foldl (reserveScanEdge g coll node ni) st = st ∨
      ∃ p ∈ l, ∃ vid ∈ edgeVehicleIds coll (p, ni),
        vehicleWithinBuffer g coll node vid = true ∧
        l.foldl (reserveScanEdge g coll node ni) st = (some vid, edgePriorityAt g (p, ni)) := by
  induction l generalizing st with
  | nil => exact Or.inl rfl
  | cons q l ih =>
    rw [List.foldl_cons]
    rcases reserveScanEdge_result g coll node ni st q with heq | ⟨vid, hmem, hwb, heq⟩
    · rw [heq]
      rcases ih st with heq' | ⟨p, hp, vid, hv, hwb, heq'⟩
      · exact Or.inl heq'
      · exact Or.inr ⟨p, List.mem_cons_of_mem _ hp, vid, hv, hwb, heq'⟩
    · rw [heq]
      rcases ih (some vid, edgePriorityAt g (q, ni)) with heq' | ⟨p, hp, vid', hv, hwb', heq'⟩
      · rw [heq']
        exact Or.inr ⟨q, List.mem_cons_self _ _, vid, hmem, hwb, rfl⟩
      · exact Or.inr ⟨p, List.mem_cons_of_mem _ hp, vid', hv, hwb', heq'⟩

theorem reservePassStep_lookup_other (coll : VehicleCollection) (gr : NodeGraph)
    (i k : ℕ) (hk : k ≠ i) :
    lookupList k (reservePassStep coll gr i).nodeReservationMap =
      lookupList k gr.nodeReservationMap := by
  unfold reservePassStep
  split
  · rfl
  · split
    · rfl
    · split
      · rfl
      · rw [lookupList_insertList]
        rw [if_neg hk]

theorem foldl_reservePassStep_untouched (coll : VehicleCollection) (l : List ℕ)
    (gr : NodeGraph) (k : ℕ) (hk : k ∉ l) :
    lookupList k ((l.foldl (reservePassStep coll) gr).nodeReservationMap) =
      lookupList k gr.nodeReservationMap := by
  induction l generalizing gr with
  | nil => rfl
  | cons a l ih =>
    rw [List.foldl_cons]
    rw [ih _ (fun hmem => hk (List.mem_cons_of_mem _ hmem))]
    exact reservePassStep_lookup_other coll gr a k (fun he => hk (he ▸ List.mem_cons_self _ _))

theorem reservePassStep_form (coll : VehicleCollection) (g : NodeGraph)
    (r : List (ℕ × ℕ)) (a : ℕ) :
    ∃ r', reservePassStep coll { g with nodeReservationMap := r } a =
        { g with nodeReservationMap := r' } ∧
      ∀ k, k ≠ a → lookupList k r' = lookupList k r := by
  unfold reservePassStep
  split
  · exact ⟨r, rfl, fun k _ => rfl⟩
  · split
    · exact ⟨r, rfl, fun k _ => rfl⟩
    · split
      · exact ⟨r, rfl, fun k _ => rfl⟩
      · rename_i prevNodes _ vid _
        refine ⟨insertList a vid r, rfl, ?_⟩
        intro k hk
        rw [lookupList_insertList, if_neg hk]

theorem reservePassStep_unreserved (coll : VehicleCollection) (g : NodeGraph)
    (r : List (ℕ × ℕ)) (ni : ℕ) (prevNodes : List ℕ)
    (hnone : lookupList ni r = none)
    (hrev : lookupList ni g.reverseNodeMap = some prevNodes) :
    reservePassStep coll { g with nodeReservationMap := r } ni =
      match (findReservation g coll (g.getNode ni) ni prevNodes).1 with
      | none => { g with nodeReservationMap := r }
      | some vid => { g with nodeReservationMap := insertList ni vid r } := by
  unfold reservePassStep
  rw [show lookupList ni ({ g with nodeReservationMap := r } : NodeGraph).nodeReservationMap
      = none from hnone]
  rw [show lookupList ni ({ g with nodeReservationMap := r } : NodeGraph).reverseNodeMap
      = some prevNodes from hrev]
  rfl

theorem createNodeReservations_lookup (coll : VehicleCollection) (g : NodeGraph)
    (ni : ℕ) (prevNodes : List ℕ)
    (hlen : ni < g.nodes.length)
    (hres : lookupList ni g.nodeReservationMap = none)
    (hrev : lookupList ni g.reverseNodeMap = some prevNodes) :
    lookupList ni (createNodeReservations coll g).nodeReservationMap =
      (findReservation g coll (g.getNode ni) ni prevNodes).1 := by
  have key : ∀ (l : List ℕ) (r : List (ℕ × ℕ)), ni ∈ l → l.Nodup →
      lookupList ni r = none →
      lookupList ni
          ((l.foldl (reservePassStep coll) { g with nodeReservationMap := r }).nodeReservationMap) =
        (findReservation g coll (g.getNode ni) ni prevNodes).1 := by
    intro l
    induction l with
    | nil =>
      intro r hmem
      cases hmem
    | cons a l ih =>
      intro r hmem hnodup hnone
      rcases List.mem_cons.mp hmem with rfl | hmem'
      · have hni : ni ∉ l := (List.nodup_cons.mp hnodup).1
        rw [List.foldl_cons]
        rw [reservePassStep_unreserved coll g r ni prevNodes hnone hrev]
        cases hfind : (findReservation g coll (g.getNode ni) ni prevNodes).1 with
        | none =>
          exact (foldl_reservePassStep_untouched coll l
            { g with nodeReservationMap := r } ni hni).trans hnone
        | some vid =>
          refine (foldl_reservePassStep_untouched coll l
            { g with nodeReservationMap := insertList ni vid r } ni hni).trans ?_
          show lookupList ni (insertList ni vid r) = some vid
          rw [lookupList_insertList, if_pos rfl]
      · rw [List.foldl_cons]
        obtain ⟨r', hstep, hother⟩ := reservePassStep_form coll g r a
        rw [hstep]
        have hne : ni ≠ a := by
          intro he
          exact (List.nodup_cons.mp hnodup).1 (he ▸ hmem')
        exact ih r' hmem' (List.nodup_cons.mp hnodup).2 ((hother ni hne).trans hnone)
  have hg : ({ g with nodeReservationMap := g.nodeReservationMap } : NodeGraph) = g := rfl
  have := key (List.range g.nodes.length) g.nodeReservationMap
    (List.mem_range.mpr hlen) (List.nodup_range _) hres
  rw [hg] at this
  exact this

/-- Claim C3 (amended): during the acquire pass, if at least one vehicle
within the acquisition buffer travels on a priority incoming edge of an
unreserved node, the node is granted to a vehicle within the buffer on a
priority incoming edge; but when no priority-edge vehicle is within the
buffer, vehicles on non-priority incoming edges can be granted even though
a priority edge exists (see the counterexample). -/
theorem createNodeReservations_priority (coll : VehicleCollection) (g : NodeGraph)
    (ni : ℕ) (prevNodes : List ℕ)
    (hlen : ni < g.nodes.length)
    (hres : lookupList ni g.nodeReservationMap = none)
    (hrev : lookupList ni g.reverseNodeMap = some prevNodes)
    (hpri : ∃ p ∈ prevNodes, edgePriorityAt g (p, ni) = true ∧
      ∃ vid ∈ edgeVehicleIds coll (p, ni),
        vehicleWithinBuffer g coll (g.getNode ni) vid = true) :
    ∃ vid p, p ∈ prevNodes ∧
      lookupList ni (createNodeReservations coll g).nodeReservationMap = some vid ∧
      edgePriorityAt g (p, ni) = true ∧
      vid ∈ edgeVehicleIds coll (p, ni) ∧
      vehicleWithinBuffer g coll (g.getNode ni) vid = true := by
  rw [createNodeReservations_lookup coll g ni prevNodes hlen hres hrev]
  unfold findReservation
  have hhit := findReservation_fold_hit g coll (g.getNode ni) ni prevNodes (none, false)
    (by intro h; cases h) hpri
  rcases findReservation_fold_result g coll (g.getNode ni) ni prevNodes (none, false) with
    heq | ⟨p, hp, vid, hv, hwb, heq⟩
  · rw [heq] at hhit
    cases hhit.1
  · rw [heq] at hhit ⊢
    exact ⟨vid, p, hp, rfl, hhit.2, hv, hwb⟩

/-- Witness for C3: with vehicles within the buffer on both the priority
edge (0,2) and the non-priority edge (1,2), the grant goes to a
priority-edge vehicle. -/
theorem createNodeReservations_priority_witness :
    ∃ vid p, p ∈ [0, 1] ∧
      lookupList 2 (createNodeReservations prioExampleCollB prioExampleGraph).nodeReservationMap
        = some vid ∧
      edgePriorityAt prioExampleGraph (p, 2) = true ∧
      vid ∈ edgeVehicleIds prioExampleCollB (p, 2) ∧
      vehicleWithinBuffer prioExampleGraph prioExampleCollB (prioExampleGraph.getNode 2) vid
        = true :=
  createNodeReservations_priority prioExampleCollB prioExampleGraph 2 [0, 1]
    (by with_unfolding_all decide) (by with_unfolding_all decide)
    (by with_unfolding_all decide) (by with_unfolding_all decide)

/-- Counterexample to C3 as stated: node 2 has a priority incoming edge
(0,2), there is no vehicle on it, and vehicle 5 — travelling on the
non-priority incoming edge (1,2) — is granted the reservation in the pass,
so priority filtering does not hold "regardless of whether any vehicle is
present on the priority edges". -/
theorem createNodeReservations_nonpriority_counterexample :
    edgePriorityAt prioExampleGraph (0, 2) = true ∧
    edgePriorityAt prioExampleGraph (1, 2) = false ∧
    edgeVehicleIds prioExampleColl (0, 2) = [] ∧
    (5 : ℕ) ∈ edgeVehicleIds prioExampleColl (1, 2) ∧
    lookupList 2 (createNodeReservations prioExampleColl prioExampleGraph).nodeReservationMap
      = some 5 := by
  with_unfolding_all decide

/-- Claim C4 (amended): when the acquire pass grants a node, the grantee is
the last vehicle within the acquisition buffer in iteration order over the
(priority-filtered) incoming edges and their vehicle lists — so it is some
vehicle within the buffer on an incoming edge of the node, but not
necessarily the one with minimal distance (see the counterexample). -/
theorem createNodeReservations_sound (coll : VehicleCollection) (g : NodeGraph)
    (ni : ℕ) (prevNodes : List ℕ) (vid : ℕ)
    (hlen : ni < g.nodes.length)
    (hres : lookupList ni g.nodeReservationMap = none)
    (hrev : lookupList ni g.reverseNodeMap = some prevNodes)
    (hgrant : lookupList ni (createNodeReservations coll g).nodeReservationMap = some vid) :
    ∃ p ∈ prevNodes, vid ∈ edgeVehicleIds coll (p, ni) ∧
      vehicleWithinBuffer g coll (g.getNode ni) vid = true := by
  rw [createNodeReservations_lookup coll g ni prevNodes hlen hres hrev] at hgrant
  unfold findReservation at hgrant
  rcases findReservation_fold_result g coll (g.getNode ni) ni prevNodes (none, false) with
    heq | ⟨p, hp, vid', hv, hwb, heq⟩
  · rw [heq] at hgrant
    cases hgrant
  · rw [heq] at hgrant
    cases hgrant
    exact ⟨p, hp, hv, hwb⟩

/-- Witness for C4: the vehicle granted node 1 is within the buffer on the
incoming edge (0,1). -/
theorem createNodeReservations_sound_witness :
    ∃ p ∈ [0], (2 : ℕ) ∈ edgeVehicleIds nearExampleColl (p, 1) ∧
      vehicleWithinBuffer nearExampleGraph nearExampleColl (nearExampleGraph.getNode 1) 2
        = true :=
  createNodeReservations_sound nearExampleColl nearExampleGraph 1 [0] 2
    (by with_unfolding_all decide) (by with_unfolding_all decide)
    (by with_unfolding_all decide) (by with_unfolding_all decide)

/-- Counterexample to C4 as stated: vehicles 1 and 2 are both within the
acquisition buffer on the single incoming edge of node 1, vehicle 1 is
strictly nearer to the node, yet the grant goes to vehicle 2 (the last one
in iteration order). -/
theorem createNodeReservations_nearest_counterexample :
    lookupList 1 (createNodeReservations nearExampleColl nearExampleGraph).nodeReservationMap
      = some 2 ∧
    ((nearExampleV1.getWorldPosition nearExampleGraph).sub
        (nearExampleGraph.getNode 1).position).length <
      ((nearExampleV2.getWorldPosition nearExampleGraph).sub
        (nearExampleGraph.getNode 1).position).length ∧
    vehicleWithinBuffer nearExampleGraph nearExampleColl (nearExampleGraph.getNode 1) 1
      = true ∧
    vehicleWithinBuffer nearExampleGraph nearExampleColl (nearExampleGraph.getNode 1) 2
      = true := by
  with_unfolding_all decide

/-! ### Claims C1, C9 and C10: kinematics -/

theorem driveEdge_none (g : NodeGraph) (coll : VehicleCollection) (v : Vehicle) (d : ℚ)
    (hn : v.getNextNodeIndex = none) :
    v.driveEdge g coll d = (v, 0) := by
  unfold Vehicle.driveEdge
  rw [hn]

theorem currentEdgeLength_eq (v : Vehicle) (g : NodeGraph) (n : ℕ)
    (hn : v.getNextNodeIndex = some n) :
    v.currentEdgeLength g =
      (((g.getNode n).position).sub ((g.getNode v.getCurrentNodeIndex).position)).length := by
  unfold Vehicle.currentEdgeLength
  rw [hn]

theorem driveEdge_eq (g : NodeGraph) (coll : VehicleCollection) (v : Vehicle) (d : ℚ)
    (n : ℕ) (hn : v.getNextNodeIndex = some n) :
    v.driveEdge g coll d =
      (if v.shouldWaitAtNode g (driveNodeBuffer / v.currentEdgeLength g)
          (v.edgePosition + computedMove g coll v d) = true then
        ({ v with edgePosition := 1 - driveNodeBuffer / v.currentEdgeLength g }, 0)
      else if v.edgePosition + computedMove g coll v d > 1 then
        ({ v with pathIndex := v.pathIndex + 1, edgePosition := 0 },
          (v.edgePosition + computedMove g coll v d - 1) * v.currentEdgeLength g)
      else ({ v with edgePosition := v.edgePosition + computedMove g coll v d }, 0)) := by
  have hlen := currentEdgeLength_eq v g n hn
  simp only [Vehicle.driveEdge, computedMove, hn, ← hlen]

theorem getNextVehicleEdgeDistance_some (v : Vehicle) (coll : VehicleCollection) (gap : ℚ)
    (hgap : v.getNextVehicleEdgeDistance coll = some gap) :
    ∃ n, v.getNextNodeIndex = some n := by
  unfold Vehicle.getNextVehicleEdgeDistance Vehicle.getEdge at hgap
  cases h : v.getNextNodeIndex with
  | none =>
    rw [h] at hgap
    cases hgap
  | some n => exact ⟨n, rfl⟩

theorem computedMove_of_gap (g : NodeGraph) (coll : VehicleCollection) (v : Vehicle)
    (d gap : ℚ)
    (hgap : v.getNextVehicleEdgeDistance coll = some gap)
    (hbind : gap - followDistance / v.currentEdgeLength g < d / v.currentEdgeLength g) :
    computedMove g coll v d = gap - followDistance / v.currentEdgeLength g := by
  unfold computedMove
  rw [hgap]
  dsimp only
  rw [if_pos hbind]

/-- Claim C10: when a lead vehicle exists on the same directed edge and its
gap minus `follow_distance/edge_length` is smaller than the intended
parametric move, and the intersection-wait clamp does not apply (and the
result stays on the edge), `drive_edge` sets `edge_position` to exactly the
lead's snapshot position minus `follow_distance/edge_length` — which the
witness shows can be strictly less than the previous position, i.e. a
single drive step can move a vehicle backwards. -/
theorem driveEdge_follow_clamp (g : NodeGraph) (coll : VehicleCollection) (v : Vehicle)
    (d gap : ℚ)
    (hgap : v.getNextVehicleEdgeDistance coll = some gap)
    (hbind : gap - followDistance / v.currentEdgeLength g < d / v.currentEdgeLength g)
    (hnowait : v.shouldWaitAtNode g (driveNodeBuffer / v.currentEdgeLength g)
        (v.edgePosition + (gap - followDistance / v.currentEdgeLength g)) = false)
    (hle : v.edgePosition + (gap - followDistance / v.currentEdgeLength g) ≤ 1) :
    (v.driveEdge g coll d).1.edgePosition
      = v.edgePosition + (gap - followDistance / v.currentEdgeLength g) := by
  obtain ⟨n, hn⟩ := getNextVehicleEdgeDistance_some v coll gap hgap
  rw [driveEdge_eq g coll v d n hn, computedMove_of_gap g coll v d gap hgap hbind]
  rw [if_neg (by rw [hnowait]; exact Bool.false_ne_true)]
  rw [if_neg (not_lt.mpr hle)]

/-- Witness for C10: the follower at 0.5 with the lead at 0.52 on a 10-unit
edge is moved to 0.45 < 0.5 — strictly backwards. -/
theorem driveEdge_follow_clamp_witness :
    (followExampleVehicle.driveEdge followExampleGraph followExampleColl 1).1.edgePosition
      = followExampleVehicle.edgePosition +
        (1 / 50 - followDistance /
          (followExampleVehicle.currentEdgeLength followExampleGraph)) ∧
    followExampleVehicle.edgePosition +
        (1 / 50 - followDistance /
          (followExampleVehicle.currentEdgeLength followExampleGraph))
      < followExampleVehicle.edgePosition :=
  ⟨driveEdge_follow_clamp followExampleGraph followExampleColl followExampleVehicle 1 (1 / 50)
      (by with_unfolding_all decide) (by with_unfolding_all decide)
      (by with_unfolding_all decide) (by with_unfolding_all decide),
    by with_unfolding_all decide⟩

theorem getNextNodeIndex_some_ne (v : Vehicle) (n : ℕ)
    (hn : v.getNextNodeIndex = some n) : v.pathIndex ≠ v.path.length - 1 := by
  unfold Vehicle.getNextNodeIndex at hn
  intro he
  rw [if_pos he] at hn
  cases hn

theorem computedMove_le (g : NodeGraph) (coll : VehicleCollection) (v : Vehicle) (d : ℚ) :
    computedMove g coll v d ≤ d / v.currentEdgeLength g := by
  unfold computedMove
  cases v.getNextVehicleEdgeDistance coll with
  | none => exact le_refl _
  | some gap =>
    dsimp only
    split
    · next h => exact le_of_lt h
    · exact le_refl _

theorem driveEdge_progress (g : NodeGraph) (coll : VehicleCollection) (v : Vehicle) (d : ℚ)
    (h : (v.driveEdge g coll d).2 > 0) :
    ∃ n, v.getNextNodeIndex = some n ∧
      (v.driveEdge g coll d).1.pathIndex = v.pathIndex + 1 ∧
      (v.driveEdge g coll d).1.path = v.path := by
  cases hn : v.getNextNodeIndex with
  | none =>
    rw [driveEdge_none g coll v d hn] at h
    exact absurd h (lt_irrefl 0)
  | some n =>
    rw [driveEdge_eq g coll v d n hn] at h ⊢
    split at h
    · exact absurd h (lt_irrefl 0)
    · split at h
      · next hcross =>
        rw [if_neg (by assumption), if_pos hcross]
        exact ⟨n, rfl, rfl, rfl⟩
      · exact absurd h (lt_irrefl 0)

theorem driveGo_succ (g : NodeGraph) (coll : VehicleCollection) (fuel : ℕ) (v : Vehicle)
    (d : ℚ) :
    Vehicle.driveGo g coll (fuel + 1) v d =
      if d > 0 then
        Vehicle.driveGo g coll fuel (v.driveEdge g coll d).1 (v.driveEdge g coll d).2
      else (v, d) := rfl

theorem driveGo_nonpos (g : NodeGraph) (coll : VehicleCollection) (fuel : ℕ) (v : Vehicle)
    (d : ℚ) (hd : ¬ d > 0) :
    Vehicle.driveGo g coll fuel v d = (v, d) := by
  cases fuel with
  | zero => rfl
  | succ fuel =>
    rw [driveGo_succ, if_neg hd]

theorem driveGo_stop (g : NodeGraph) (coll : VehicleCollection) (fuel : ℕ) :
    ∀ (v : Vehicle) (d : ℚ), v.path.length - v.pathIndex ≤ fuel →
      v.pathIndex < v.path.length →
      (Vehicle.driveGo g coll fuel v d).2 ≤ 0 := by
  induction fuel with
  | zero =>
    intro v d hfuel hwf
    omega
  | succ fuel ih =>
    intro v d hfuel hwf
    rw [driveGo_succ]
    by_cases hd : d > 0
    · rw [if_pos hd]
      by_cases hr : (v.driveEdge g coll d).2 > 0
      · obtain ⟨n, hn, hpi, hpath⟩ := driveEdge_progress g coll v d hr
        have hne := getNextNodeIndex_some_ne v n hn
        apply ih
        · rw [hpi, hpath]
          omega
        · rw [hpi, hpath]
          omega
      · rw [driveGo_nonpos g coll fuel _ _ hr]
        exact le_of_not_lt hr
    · rw [if_neg hd]
      exact le_of_not_lt hd

/-- Claim C9: the per-tick drive loop terminates: with fuel `path.length`
the loop has exhausted its distance (each iteration with positive leftover
advances `path_index`, which is bounded by the path length), and a single
`drive_edge` step either returns zero remaining distance or crosses an
edge, strictly decreasing the remaining distance by at least the
world-space length of the traversed portion. -/
theorem drive_loop_terminates (g : NodeGraph) (coll : VehicleCollection) (v : Vehicle)
    (d : ℚ)
    (hwf : v.pathIndex < v.path.length)
    (hpos1 : v.edgePosition < 1)
    (hlen : 0 < v.currentEdgeLength g)
    (hd : 0 ≤ d) :
    (Vehicle.driveGo g coll v.path.length v d).2 ≤ 0 ∧
    ((v.driveEdge g coll d).2 = 0 ∨
      ((v.driveEdge g coll d).1.pathIndex = v.pathIndex + 1 ∧
       (v.driveEdge g coll d).2 ≤ d - (1 - v.edgePosition) * v.currentEdgeLength g ∧
       (v.driveEdge g coll d).2 < d)) := by
  constructor
  · exact driveGo_stop g coll v.path.length v d (by omega) hwf
  · cases hn : v.getNextNodeIndex with
    | none =>
      rw [driveEdge_none g coll v d hn]
      exact Or.inl rfl
    | some n =>
      rw [driveEdge_eq g coll v d n hn]
      split
      · exact Or.inl rfl
      · split
        · next hcross =>
          refine Or.inr ⟨rfl, ?_, ?_⟩
          · have hmle := computedMove_le g coll v d
            have h1 : (v.edgePosition + computedMove g coll v d - 1) * v.currentEdgeLength g
                ≤ (v.edgePosition + d / v.currentEdgeLength g - 1) * v.currentEdgeLength g :=
              mul_le_mul_of_nonneg_right (by linarith) (le_of_lt hlen)
            have h2 : (v.edgePosition + d / v.currentEdgeLength g - 1) * v.currentEdgeLength g
                = d - (1 - v.edgePosition) * v.currentEdgeLength g := by
              field_simp
              ring
            calc (v.edgePosition + computedMove g coll v d - 1) * v.currentEdgeLength g
                ≤ (v.edgePosition + d / v.currentEdgeLength g - 1) * v.currentEdgeLength g := h1
              _ = d - (1 - v.edgePosition) * v.currentEdgeLength g := h2
          · have hmle := computedMove_le g coll v d
            have h1 : (v.edgePosition + computedMove g coll v d - 1) * v.currentEdgeLength g
                ≤ (v.edgePosition + d / v.currentEdgeLength g - 1) * v.currentEdgeLength g :=
              mul_le_mul_of_nonneg_right (by linarith) (le_of_lt hlen)
            have h2 : (v.edgePosition + d / v.currentEdgeLength g - 1) * v.currentEdgeLength g
                = d - (1 - v.edgePosition) * v.currentEdgeLength g := by
              field_simp
              ring
            have h3 : 0 < (1 - v.edgePosition) * v.currentEdgeLength g :=
              mul_pos (by linarith) hlen
            show (v.edgePosition + computedMove g coll v d - 1) * v.currentEdgeLength g < d
            linarith
        · exact Or.inl rfl

/-- Witness for C9 on the three-node chain. -/
theorem drive_loop_terminates_witness :
    (Vehicle.driveGo chainExampleGraph VehicleCollection.empty
        chainExampleVehicle.path.length chainExampleVehicle (19 / 2)).2 ≤ 0 ∧
    ((chainExampleVehicle.driveEdge chainExampleGraph VehicleCollection.empty (19 / 2)).2 = 0 ∨
      ((chainExampleVehicle.driveEdge chainExampleGraph VehicleCollection.empty
          (19 / 2)).1.pathIndex = chainExampleVehicle.pathIndex + 1 ∧
       (chainExampleVehicle.driveEdge chainExampleGraph VehicleCollection.empty (19 / 2)).2
         ≤ 19 / 2 - (1 - chainExampleVehicle.edgePosition) *
            chainExampleVehicle.currentEdgeLength chainExampleGraph ∧
       (chainExampleVehicle.driveEdge chainExampleGraph VehicleCollection.empty (19 / 2)).2
         < 19 / 2)) :=
  drive_loop_terminates chainExampleGraph VehicleCollection.empty chainExampleVehicle (19 / 2)
    (by with_unfolding_all decide) (by with_unfolding_all decide)
    (by with_unfolding_all decide) (by with_unfolding_all decide)

theorem getNextNodeIndex_val (v : Vehicle) (n : ℕ) (hn : v.getNextNodeIndex = some n) :
    n = v.path.getD (v.pathIndex + 1) 0 := by
  unfold Vehicle.getNextNodeIndex at hn
  by_cases he : v.pathIndex = v.path.length - 1
  · rw [if_pos he] at hn
    cases hn
  · rw [if_neg he] at hn
    cases hn
    rfl

theorem pathEdges_elim (g : NodeGraph) (v : Vehicle)
    (h : pathEdgesAtLeastBuffer g v = true) (i : ℕ) (hi : i < v.path.length - 1) :
    driveNodeBuffer ≤ v.edgeLengthAt g i := by
  unfold pathEdgesAtLeastBuffer at h
  have := List.all_eq_true.mp h i (List.mem_range.mpr hi)
  exact of_decide_eq_true this

theorem pathEdges_congr (g : NodeGraph) (v v' : Vehicle) (hp : v'.path = v.path) :
    pathEdgesAtLeastBuffer g v' = pathEdgesAtLeastBuffer g v := by
  unfold pathEdgesAtLeastBuffer Vehicle.edgeLengthAt
  rw [hp]

theorem bufferInvariantB_of (g : NodeGraph) (v : Vehicle)
    (h : ∀ n w, v.getNextNodeIndex = some n → v.pathIndex ≠ v.path.length - 2 →
      lookupList n g.nodeReservationMap = some w → v.id ≠ w →
      v.edgePosition ≤ 1 - driveNodeBuffer / v.currentEdgeLength g) :
    bufferInvariantB g v = true := by
  unfold bufferInvariantB
  cases hn : v.getNextNodeIndex with
  | none => rfl
  | some n =>
    dsimp only
    by_cases hfin : v.pathIndex = v.path.length - 2
    · rw [if_pos hfin]
    · rw [if_neg hfin]
      cases hw : lookupList n g.nodeReservationMap with
      | none => rfl
      | some w =>
        dsimp only
        by_cases hid : v.id = w
        · rw [if_pos hid]
        · rw [if_neg hid]
          exact decide_eq_true (h n w hn hfin hw hid)

theorem shouldWait_false_bound (g : NodeGraph) (v : Vehicle) (n w : ℕ)
    (buffer newPos : ℚ)
    (hn : v.getNextNodeIndex = some n)
    (hfin : v.pathIndex ≠ v.path.length - 2)
    (hw : lookupList n g.nodeReservationMap = some w)
    (hid : v.id ≠ w)
    (hsw : v.shouldWaitAtNode g buffer newPos = false) :
    1 - newPos > buffer := by
  unfold Vehicle.shouldWaitAtNode at hsw
  rw [hn] at hsw
  dsimp only at hsw
  rw [if_neg hfin] at hsw
  by_cases hgate : 1 - newPos > buffer
  · exact hgate
  · rw [if_neg hgate, hw] at hsw
    dsimp only at hsw
    exact absurd (of_decide_eq_false hsw) (fun hcontra => hcontra hid)

theorem driveEdge_path (g : NodeGraph) (coll : VehicleCollection) (v : Vehicle) (d : ℚ) :
    (v.driveEdge g coll d).1.path = v.path := by
  cases hn : v.getNextNodeIndex with
  | none => rw [driveEdge_none g coll v d hn]
  | some n =>
    rw [driveEdge_eq g coll v d n hn]
    split
    · rfl
    · split
      · rfl
      · rfl

theorem driveEdge_wf (g : NodeGraph) (coll : VehicleCollection) (v : Vehicle) (d : ℚ)
    (hwf : v.pathIndex < v.path.length) :
    (v.driveEdge g coll d).1.pathIndex < (v.driveEdge g coll d).1.path.length := by
  cases hn : v.getNextNodeIndex with
  | none =>
    rw [driveEdge_none g coll v d hn]
    exact hwf
  | some n =>
    have hne := getNextNodeIndex_some_ne v n hn
    rw [driveEdge_eq g coll v d n hn]
    split
    · exact hwf
    · split
      · show v.pathIndex + 1 < v.path.length
        omega
      · exact hwf

theorem driveEdge_buffer (g : NodeGraph) (coll : VehicleCollection) (v : Vehicle) (d : ℚ)
    (hwf : v.pathIndex < v.path.length)
    (hlenB : pathEdgesAtLeastBuffer g v = true)
    (hinv : bufferInvariantB g v = true) :
    bufferInvariantB g (v.driveEdge g coll d).1 = true := by
  cases hn : v.getNextNodeIndex with
  | none =>
    rw [driveEdge_none g coll v d hn]
    exact hinv
  | some n =>
    have hne := getNextNodeIndex_some_ne v n hn
    rw [driveEdge_eq g coll v d n hn]
    split
    · -- waiting branch: the vehicle is parked exactly on the buffer boundary
      apply bufferInvariantB_of
      intro n' w hn' hfin hw hid
      show (1 : ℚ) - driveNodeBuffer / v.currentEdgeLength g
        ≤ 1 - driveNodeBuffer / v.currentEdgeLength g
      exact le_refl _
    · split
      · -- crossing branch: the vehicle restarts at position 0 on the next edge
        next hcross =>
        apply bufferInvariantB_of
        intro n' w hn' hfin hw hid
        have hwf' : v.pathIndex + 1 < v.path.length := by omega
        have hne' : v.pathIndex + 1 ≠ v.path.length - 1 := by
          have := getNextNodeIndex_some_ne _ n' hn'
          exact this
        have hlt : v.pathIndex + 1 < v.path.length - 1 := by omega
        have hbuf := pathEdges_elim g v hlenB (v.pathIndex + 1) hlt
        have hval := getNextNodeIndex_val _ n' hn'
        rw [currentEdgeLength_eq _ g n' hn', hval]
        have hLpos : (0 : ℚ) < v.edgeLengthAt g (v.pathIndex + 1) := by
          have : (0 : ℚ) < driveNodeBuffer := by norm_num [driveNodeBuffer]
          linarith
        have hdivle : driveNodeBuffer / v.edgeLengthAt g (v.pathIndex + 1) ≤ 1 :=
          (div_le_one hLpos).mpr hbuf
        show (0 : ℚ) ≤ 1 - driveNodeBuffer / v.edgeLengthAt g (v.pathIndex + 1)
        linarith
      · -- plain move: the wait test said no, so the distance gate must have fired
        next hnowait hncross =>
        apply bufferInvariantB_of
        intro n' w hn' hfin hw hid
        have hn'' : v.getNextNodeIndex = some n' := hn'
        have hnn : n' = n := by
          rw [hn] at hn''
          cases hn''
          rfl
        subst hnn
        have hfin' : v.pathIndex ≠ v.path.length - 2 := hfin
        have hid' : v.id ≠ w := hid
        have hsw : v.shouldWaitAtNode g (driveNodeBuffer / v.currentEdgeLength g)
            (v.edgePosition + computedMove g coll v d) = false := by
          cases hb : v.shouldWaitAtNode g (driveNodeBuffer / v.currentEdgeLength g)
              (v.edgePosition + computedMove g coll v d)
          · rfl
          · exact absurd hb hnowait
        have hgate := shouldWait_false_bound g v n' w _ _ hn hfin' hw hid' hsw
        show v.edgePosition + computedMove g coll v d
          ≤ 1 - driveNodeBuffer / v.currentEdgeLength g
        linarith

theorem driveGo_buffer (g : NodeGraph) (coll : VehicleCollection) (fuel : ℕ) :
    ∀ (v : Vehicle) (d : ℚ), v.pathIndex < v.path.length →
      pathEdgesAtLeastBuffer g v = true → bufferInvariantB g v = true →
      bufferInvariantB g ((Vehicle.driveGo g coll fuel v d).1) = true := by
  induction fuel with
  | zero =>
    intro v d _ _ hinv
    exact hinv
  | succ fuel ih =>
    intro v d hwf hlenB hinv
    rw [driveGo_succ]
    by_cases hd : d > 0
    · rw [if_pos hd]
      exact ih _ _ (driveEdge_wf g coll v d hwf)
        ((pathEdges_congr g v _ (driveEdge_path g coll v d)).trans hlenB)
        (driveEdge_buffer g coll v d hwf hlenB hinv)
    · rw [if_neg hd]
      exact hinv

/-- Claim C1 (amended): the buffer invariant that actually holds is
conditional on the next node being reserved BY ANOTHER vehicle (the code
does not wait at unreserved nodes): if every path edge is at least the
buffer long and the invariant held before the tick, then after a tick's
advancement every vehicle whose non-final next node is reserved by a
different vehicle satisfies
`edge_position ≤ 1 - node_acquisition_buffer/edge_length`. -/
theorem drive_buffer_invariant (g : NodeGraph) (coll : VehicleCollection) (v : Vehicle)
    (d : ℚ)
    (hwf : v.pathIndex < v.path.length)
    (hlenB : pathEdgesAtLeastBuffer g v = true)
    (hinv : bufferInvariantB g v = true) :
    bufferInvariantB g (v.drive g coll d) = true :=
  driveGo_buffer g coll v.path.length v d hwf hlenB hinv

/-- Counterexample to C1 as stated: with nobody holding the reservation of
its (non-final) next node, a vehicle drives straight past the acquisition
buffer: after one tick it sits at 0.95 > 1 - 0.9/10 although it does not
hold the reservation for node 1 (nobody does). -/
theorem drive_unreserved_counterexample :
    (chainExampleVehicle.drive chainExampleGraph VehicleCollection.empty (19 / 2)).edgePosition
      = 19 / 20 ∧
    lookupList 1 chainExampleGraph.nodeReservationMap = none ∧
    (chainExampleVehicle.drive chainExampleGraph VehicleCollection.empty
        (19 / 2)).getNextNodeIndex = some 1 ∧
    (chainExampleVehicle.drive chainExampleGraph VehicleCollection.empty
        (19 / 2)).pathIndex
      ≠ (chainExampleVehicle.drive chainExampleGraph VehicleCollection.empty
          (19 / 2)).path.length - 2 ∧
    ¬((chainExampleVehicle.drive chainExampleGraph VehicleCollection.empty
          (19 / 2)).edgePosition
        ≤ 1 - driveNodeBuffer /
          ((chainExampleVehicle.drive chainExampleGraph VehicleCollection.empty
            (19 / 2)).currentEdgeLength chainExampleGraph)) := by
  with_unfolding_all decide

/-- Witness for C1: on the chain with node 1 reserved by vehicle 5, the
driving vehicle 0 is clamped and the invariant holds after the tick. -/
theorem drive_buffer_invariant_witness :
    bufferInvariantB chainReservedGraph
      (chainExampleVehicle.drive chainReservedGraph VehicleCollection.empty (19 / 2)) = true :=
  drive_buffer_invariant chainReservedGraph VehicleCollection.empty chainExampleVehicle
    (19 / 2) (by with_unfolding_all decide) (by with_unfolding_all decide)
    (by with_unfolding_all decide)

end Traffic
